import Mathlib

/-!
Shallow embedding of `subscriber.py` (MQTT subscriber and SQLite writer).

The embedding models:
  * JSON values as produced by `json.loads` (`Json`);
  * SQLite storage values and Python→SQLite parameter binding (`SqlValue`,
    `bindJson`), including the `NOT NULL` column constraints of the
    `sensor_readings` table;
  * the database connection state (`Store`) with the schema objects created
    by `init_database` and the stored rows;
  * the MQTT `on_message` callback, with its `try`/`except` structure made
    explicit (`on_message_try` propagates the Python exception that would be
    raised, `on_message` is the callback after its handlers swallow it);
  * the two query functions `get_latest_readings` and `get_readings_summary`,
    translated from their SQL text.

Numeric values are modelled as rationals.  The `received_at` column
(`DEFAULT CURRENT_TIMESTAMP`, assigned by SQLite) is not modelled: no query
or code path in the source reads it.  SQLite's REAL-affinity coercion of
numeric-looking text (e.g. storing the Python string "21.5" in the `value`
column converts it to the real 21.5) is likewise not modelled: no theorem
below inspects the stored representation of a textual `value`.
-/

/-- A JSON value as returned by Python's `json.loads`. -/
inductive Json : Type where
  | null : Json
  | bool : Bool → Json
  | num : ℚ → Json
  | str : String → Json
  | arr : List Json → Json
  | obj : List (String × Json) → Json

/-- A value in an SQLite storage cell: NULL, a number, or text.
(Python `bool`s are bound as the integers 0/1, so no separate boolean
storage class is needed; integer and real storage classes are merged into
one rational-valued class.) -/
inductive SqlValue : Type where
  | null : SqlValue
  | num : ℚ → SqlValue
  | text : String → SqlValue
deriving DecidableEq

/-- Binding a Python value (decoded JSON) as an SQLite statement parameter.
`none` models the `sqlite3` binding error raised for unsupported parameter
types (lists and dicts), which `store_reading` catches via
`except sqlite3.Error`. -/
def bindJson : Json → Option SqlValue
  | Json.null => some SqlValue.null
  | Json.bool b => some (SqlValue.num (if b then 1 else 0))
  | Json.num q => some (SqlValue.num q)
  | Json.str s => some (SqlValue.text s)
  | Json.arr _ => none
  | Json.obj _ => none

/-- `fields.get key` on a Python dict built by `json.loads` from a JSON
object: the LAST binding of a duplicated key wins, absent key gives `none`
(Python `None`). -/
def pyDictGet (fields : List (String × Json)) (key : String) : Option Json :=
  (fields.reverse.find? fun p => decide (p.1 = key)).map Prod.snd

/-- One row of the `sensor_readings` table.  The DB-assigned `received_at`
column is omitted (never read by the source). -/
structure StoredRow : Type where
  id : Nat
  sensor_name : String
  sensor_type : String
  value : SqlValue
  unit : SqlValue
  timestamp : SqlValue
deriving DecidableEq

/-- Column list of the table created by `init_database`. -/
def sensorReadingsColumns : List String :=
  ["id", "sensor_name", "sensor_type", "value", "unit", "timestamp", "received_at"]

/-- The SQLite database file state: schema objects (present or not, with
their definition) and the table contents.  `nextId` models the
AUTOINCREMENT id counter. -/
structure Store : Type where
  table : Option (List String)
  idx_timestamp : Option String
  idx_sensor_name : Option String
  rows : List StoredRow
  nextId : Nat
deriving DecidableEq

/-- A fresh, empty database file. -/
def emptyStore : Store :=
  { table := none, idx_timestamp := none, idx_sensor_name := none, rows := [], nextId := 1 }

/-- `CREATE TABLE IF NOT EXISTS sensor_readings (...)`. -/
def createTableIfNotExists (s : Store) : Store :=
  match s.table with
  | some _ => s
  | none => { s with table := some sensorReadingsColumns }

/-- `CREATE INDEX IF NOT EXISTS idx_timestamp ON sensor_readings(timestamp)`. -/
def createIdxTimestampIfNotExists (s : Store) : Store :=
  match s.idx_timestamp with
  | some _ => s
  | none => { s with idx_timestamp := some "timestamp" }

/-- `CREATE INDEX IF NOT EXISTS idx_sensor_name ON sensor_readings(sensor_name)`. -/
def createIdxSensorNameIfNotExists (s : Store) : Store :=
  match s.idx_sensor_name with
  | some _ => s
  | none => { s with idx_sensor_name := some "sensor_name" }

/-- `init_database`: connect and run the three `IF NOT EXISTS` DDL
statements, then commit.  Returns the new store state and the function's
boolean result.  (The `sqlite3.Error` branch — an I/O-level failure to open
the file — is outside the state modelled here.) -/
def init_database (s : Store) : Store × Bool :=
  (createIdxSensorNameIfNotExists (createIdxTimestampIfNotExists (createTableIfNotExists s)), true)

/-- `store_reading`: INSERT one row and commit.  Returns `false` (after the
`except sqlite3.Error` handler) when the connection is absent, the table
does not exist, a parameter cannot be bound, or a bound NULL violates a
`NOT NULL` column constraint; otherwise appends the row and returns `true`. -/
def store_reading (db : Option Store) (sensor_name sensor_type : String)
    (value unit timestamp : Json) : Option Store × Bool :=
  match db with
  | none => (none, false)
  | some s =>
    match s.table with
    | none => (some s, false)
    | some _ =>
      match bindJson value, bindJson unit, bindJson timestamp with
      | some v, some u, some t =>
        if v = SqlValue.null ∨ u = SqlValue.null ∨ t = SqlValue.null then (some s, false)
        else
          (some { s with
                    rows := s.rows ++ [⟨s.nextId, sensor_name, sensor_type, v, u, t⟩],
                    nextId := s.nextId + 1 },
           true)
      | _, _, _ => (some s, false)

/-- Python's `topic.split('/')` (split on every slash, keeping empty
segments; the empty string splits to `[""]`). -/
def splitSlashAux : List Char → List Char → List String
  | [], acc => [String.mk acc.reverse]
  | c :: cs, acc =>
    if c = '/' then String.mk acc.reverse :: splitSlashAux cs []
    else splitSlashAux cs (c :: acc)

/-- `msg.topic.split('/')`. -/
def splitSlash (s : String) : List String :=
  splitSlashAux s.toList []

/-- `payload.get('unit', '')`. -/
def decodedUnit (fields : List (String × Json)) : Json :=
  (pyDictGet fields "unit").getD (Json.str "")

/-- `payload.get('timestamp', datetime.now().isoformat())`; `now` is the
wall-clock string substituted when the field is absent. -/
def decodedTimestamp (fields : List (String × Json)) (now : String) : Json :=
  (pyDictGet fields "timestamp").getD (Json.str now)

/-- Lines 138–140 of the handler: the three `payload.get` calls.  `none`
models the `AttributeError` raised when the parsed payload is not a dict
(no `.get` method). -/
def decodeCandidate (j : Json) (now : String) : Option (Option Json × Json × Json) :=
  match j with
  | Json.obj fields =>
    some (pyDictGet fields "value", decodedUnit fields, decodedTimestamp fields now)
  | _ => none

/-- The Python exceptions that can arise inside the handler's `try` block. -/
inductive PyExn : Type where
  | jsonDecodeError : PyExn
  | attributeError : PyExn
  | formatValueError : PyExn
deriving DecidableEq

/-- The subscriber's mutable globals touched by `on_message`:
`db_connection` and `messages_received`. -/
structure MsgState : Type where
  db : Option Store
  messages_received : Nat
deriving DecidableEq

/-- The body of `on_message` with exception propagation explicit.  The
payload argument is the outcome of `msg.payload.decode()` + `json.loads`:
`none` when that raises (invalid bytes or invalid JSON), `some j` when it
parses.  An `Except.error` carries the global state at the moment the
exception reaches the `except` handlers (all mutations before the raise
persist).  `formatValueError` models the `ValueError` raised by the
`{value:6.1f}` f-string in the success log line when the stored `value` is
a Python `str` — it fires only after `store_reading` has already
committed. -/
def on_message_try (st : MsgState) (topic : String) (payload : Option Json)
    (now : String) : Except (PyExn × MsgState) MsgState :=
  match splitSlash topic with
  | [_, sensor_name, sensor_type] =>
    match payload with
    | none =>
      Except.error (PyExn.jsonDecodeError,
        { st with messages_received := st.messages_received + 1 })
    | some j =>
      match decodeCandidate j now with
      | none =>
        Except.error (PyExn.attributeError,
          { st with messages_received := st.messages_received + 1 })
      | some (valueOpt, unitJ, tsJ) =>
        match valueOpt with
        | none => Except.ok { st with messages_received := st.messages_received + 1 }
        | some Json.null => Except.ok { st with messages_received := st.messages_received + 1 }
        | some value =>
          match store_reading st.db sensor_name sensor_type value unitJ tsJ with
          | (db2, true) =>
            match value with
            | Json.str _ =>
              Except.error (PyExn.formatValueError,
                { db := db2, messages_received := st.messages_received + 1 })
            | _ => Except.ok { db := db2, messages_received := st.messages_received + 1 }
          | (db2, false) => Except.ok { db := db2, messages_received := st.messages_received + 1 }
  | _ => Except.ok { st with messages_received := st.messages_received + 1 }

/-- `on_message` as the transport sees it: every exception raised in the
body is swallowed by the `except` clauses (which only log), so the callback
always returns and leaves behind the state reached by the body. -/
def on_message (st : MsgState) (topic : String) (payload : Option Json)
    (now : String) : MsgState :=
  match on_message_try st topic payload now with
  | Except.ok s => s
  | Except.error (_, s) => s

/-- A fully decoded-and-bound insert candidate:
(sensor_name, sensor_type, value, unit, timestamp). -/
abbrev Candidate := String × String × SqlValue × SqlValue × SqlValue

/-- The pure decode pipeline of one message: everything `on_message` does
to a message before touching the database, as a function of the message
alone.  `none` when the message is rejected (bad topic shape, unparseable
payload, payload not a dict, missing/None value, unbindable or NULL
parameter). -/
def msgCandidate (topic : String) (payload : Option Json) (now : String) :
    Option Candidate :=
  match splitSlash topic with
  | [_, sensor_name, sensor_type] =>
    match payload with
    | none => none
    | some j =>
      match decodeCandidate j now with
      | none => none
      | some (valueOpt, unitJ, tsJ) =>
        match valueOpt with
        | none => none
        | some Json.null => none
        | some value =>
          match bindJson value, bindJson unitJ, bindJson tsJ with
          | some v, some u, some t =>
            if v = SqlValue.null ∨ u = SqlValue.null ∨ t = SqlValue.null then none
            else some (sensor_name, sensor_type, v, u, t)
          | _, _, _ => none
  | _ => none

/-- The row a candidate becomes when inserted with a given id. -/
def mkRow (id : Nat) (c : Candidate) : StoredRow :=
  ⟨id, c.1, c.2.1, c.2.2.1, c.2.2.2.1, c.2.2.2.2⟩

/-- The rows an insert attempt adds: one row when there is a candidate and
the table exists, none otherwise. -/
def insertedRows (d : Store) (c : Option Candidate) : List StoredRow :=
  match d.table with
  | none => []
  | some _ =>
    match c with
    | none => []
    | some cand => [mkRow d.nextId cand]

/-- The store after one message's insert attempt. -/
def applyCandidate (d : Store) (c : Option Candidate) : Store :=
  { d with rows := d.rows ++ insertedRows d c,
           nextId := d.nextId + (insertedRows d c).length }

/-- The database state reached by `init_database` on a fresh file — the
store the running process works against. -/
def initStore : Store := (init_database emptyStore).1

/-! ## The query layer: SQL of `get_latest_readings` / `get_readings_summary` -/

/-- Code point (= UTF-8 byte order) lexicographic `≤` on character lists:
SQLite's BINARY collation, under which the TEXT columns are compared and
sorted. -/
def charListLe : List Char → List Char → Bool
  | [], _ => true
  | _ :: _, [] => false
  | c :: cs, d :: ds =>
    if c.toNat < d.toNat then true
    else if d.toNat < c.toNat then false
    else charListLe cs ds

/-- Strict version of `charListLe`. -/
def charListLt : List Char → List Char → Bool
  | [], [] => false
  | [], _ :: _ => true
  | _ :: _, [] => false
  | c :: cs, d :: ds =>
    if c.toNat < d.toNat then true
    else if d.toNat < c.toNat then false
    else charListLt cs ds

/-- BINARY-collation `≤` on strings. -/
def strLeB (s t : String) : Bool := charListLe s.data t.data

/-- BINARY-collation `<` on strings. -/
def strLtB (s t : String) : Bool := charListLt s.data t.data

/-- The grouping key `(sensor_name, sensor_type)`. -/
def keyOf (r : StoredRow) : String × String := (r.sensor_name, r.sensor_type)

/-- `ORDER BY sensor_name, sensor_type`. -/
def keyLe (a b : String × String) : Prop :=
  strLtB a.1 b.1 = true ∨ (a.1 = b.1 ∧ strLeB a.2 b.2 = true)

instance keyLe.decidableRel : DecidableRel keyLe := fun a b =>
  inferInstanceAs (Decidable (strLtB a.1 b.1 = true ∨ (a.1 = b.1 ∧ strLeB a.2 b.2 = true)))

/-- SQLite's ordering of storage values: NULL sorts before numbers, numbers
before text; numbers compare numerically, text by BINARY collation. -/
def sqlLeB : SqlValue → SqlValue → Bool
  | SqlValue.null, _ => true
  | _, SqlValue.null => false
  | SqlValue.num x, SqlValue.num y => decide (x ≤ y)
  | SqlValue.num _, SqlValue.text _ => true
  | SqlValue.text _, SqlValue.num _ => false
  | SqlValue.text s, SqlValue.text t => charListLe s.data t.data

/-- One step of the `MIN` aggregate (NULL inputs are skipped). -/
def aggMin (a b : SqlValue) : SqlValue :=
  match a, b with
  | SqlValue.null, b => b
  | a, SqlValue.null => a
  | a, b => if sqlLeB a b then a else b

/-- One step of the `MAX` aggregate (NULL inputs are skipped). -/
def aggMax (a b : SqlValue) : SqlValue :=
  match a, b with
  | SqlValue.null, b => b
  | a, SqlValue.null => a
  | a, b => if sqlLeB a b then b else a

/-- Numeric cast used by the `AVG` aggregate.  (SQLite casts text to its
longest numeric prefix; that branch is only reachable for non-numeric
stored `value`s, which every theorem below excludes by hypothesis, so it is
collapsed to 0 here.) -/
def SqlValue.toRat : SqlValue → ℚ
  | SqlValue.num q => q
  | _ => 0

/-- The rows of one `GROUP BY sensor_name, sensor_type` group. -/
def groupRows (rows : List StoredRow) (k : String × String) : List StoredRow :=
  rows.filter fun r => decide (keyOf r = k)

/-- `MIN(value)` over a group. -/
def minValue (g : List StoredRow) : SqlValue :=
  g.foldl (fun acc r => aggMin acc r.value) SqlValue.null

/-- `MAX(value)` over a group. -/
def maxValue (g : List StoredRow) : SqlValue :=
  g.foldl (fun acc r => aggMax acc r.value) SqlValue.null

/-- One result row of `get_readings_summary`. -/
structure SummaryRow : Type where
  sensor_name : String
  sensor_type : String
  count : Nat
  min_val : SqlValue
  max_val : SqlValue
  avg_val : ℚ
deriving DecidableEq

/-- The aggregate row of one group: `COUNT(*)`, `MIN(value)`, `MAX(value)`,
`AVG(value)`. -/
def summaryFor (rows : List StoredRow) (k : String × String) : SummaryRow :=
  { sensor_name := k.1, sensor_type := k.2,
    count := (groupRows rows k).length,
    min_val := minValue (groupRows rows k),
    max_val := maxValue (groupRows rows k),
    avg_val := ((groupRows rows k).map fun r => r.value.toRat).sum /
      ((groupRows rows k).length : ℚ) }

/-- The distinct grouping keys of the stored rows. -/
def summaryKeys (rows : List StoredRow) : List (String × String) :=
  (rows.map keyOf).dedup

/-- `get_readings_summary`: the `SELECT ... GROUP BY sensor_name,
sensor_type ORDER BY sensor_name, sensor_type` query; `none` models the
`None` returned when the connection is absent or the query raises
(`sqlite3.Error`, e.g. missing table). -/
def get_readings_summary (db : Option Store) : Option (List SummaryRow) :=
  match db with
  | none => none
  | some s =>
    match s.table with
    | none => none
    | some _ => some ((List.insertionSort keyLe (summaryKeys s.rows)).map (summaryFor s.rows))

/-- The projected tuple `(sensor_name, sensor_type, value, unit, timestamp)`
of the latest-readings SELECT. -/
abbrev SelRow := String × String × SqlValue × SqlValue × SqlValue

/-- The (name, type) key of a projected tuple. -/
def selKey (t : SelRow) : String × String := (t.1, t.2.1)

def selOf (r : StoredRow) : SelRow :=
  (r.sensor_name, r.sensor_type, r.value, r.unit, r.timestamp)

/-- `ORDER BY sensor_name, sensor_type` on projected tuples. -/
def selLe (a b : SelRow) : Prop := keyLe (selKey a) (selKey b)

instance selLe.decidableRel : DecidableRel selLe := fun a b =>
  inferInstanceAs (Decidable (keyLe (selKey a) (selKey b)))

/-- The inner `SELECT sensor_name, MAX(timestamp) FROM sensor_readings
GROUP BY sensor_name` subquery, evaluated at one sensor name. -/
def maxTsFor (rows : List StoredRow) (name : String) : SqlValue :=
  (rows.filter fun r => decide (r.sensor_name = name)).foldl
    (fun acc r => aggMax acc r.timestamp) SqlValue.null

/-- `get_latest_readings`: `SELECT DISTINCT sensor_name, sensor_type,
value, unit, timestamp FROM sensor_readings WHERE (sensor_name, timestamp)
IN (SELECT sensor_name, MAX(timestamp) ... GROUP BY sensor_name) ORDER BY
sensor_name, sensor_type`.  The row-pair `IN` test against the per-sensor
groups reduces to comparing the row's timestamp with its own sensor's
maximum. -/
def get_latest_readings (db : Option Store) : Option (List SelRow) :=
  match db with
  | none => none
  | some s =>
    match s.table with
    | none => none
    | some _ =>
      some (List.insertionSort selLe
        (((s.rows.filter fun r =>
            decide (r.timestamp = maxTsFor s.rows r.sensor_name)).map selOf).dedup))

/-! ## Example stores used by witnesses and counterexamples -/

/-- Two rows for the same (sensor, kind) with EQUAL timestamps and
different values. -/
def exC2CtrStore : Store :=
  { initStore with
      rows := [⟨1, "deskA", "temperature", SqlValue.num 1, SqlValue.text "C", SqlValue.text "T1"⟩,
               ⟨2, "deskA", "temperature", SqlValue.num 2, SqlValue.text "C", SqlValue.text "T1"⟩],
      nextId := 3 }

/-- Three rows over two sensors and two measurement kinds. -/
def exC2HStore : Store :=
  { initStore with
      rows := [⟨1, "deskA", "temperature", SqlValue.num 1, SqlValue.text "C", SqlValue.text "T1"⟩,
               ⟨2, "deskA", "humidity", SqlValue.num 40, SqlValue.text "%", SqlValue.text "T2"⟩,
               ⟨3, "deskB", "temperature", SqlValue.num 5, SqlValue.text "C", SqlValue.text "T3"⟩],
      nextId := 4 }

/-- Two temperature rows for one sensor, values 1 and 2. -/
def exC6Store : Store :=
  { initStore with
      rows := [⟨1, "deskA", "temperature", SqlValue.num 1, SqlValue.text "C", SqlValue.text "T1"⟩,
               ⟨2, "deskA", "temperature", SqlValue.num 2, SqlValue.text "C", SqlValue.text "T2"⟩],
      nextId := 3 }

/-! ## Order lemmas for the BINARY collation and the SQLite value order -/

theorem charListLe_refl (l : List Char) : charListLe l l = true := by
  induction l with
  | nil => rfl
  | cons c cs ih => simp [charListLe, ih]

theorem charListLe_total (a b : List Char) :
    charListLe a b = true ∨ charListLe b a = true := by
  induction a generalizing b with
  | nil => exact Or.inl rfl
  | cons c cs ih =>
    rcases b with _ | ⟨d, ds⟩
    · exact Or.inr rfl
    · rcases Nat.lt_trichotomy c.toNat d.toNat with h | h | h
      · exact Or.inl (by simp [charListLe, h])
      · rcases ih ds with h2 | h2
        · exact Or.inl (by simp [charListLe, h, h2])
        · exact Or.inr (by simp [charListLe, h.symm, h2])
      · exact Or.inr (by simp [charListLe, h, Nat.lt_asymm h])

theorem charListLe_trans {a b c : List Char} (h1 : charListLe a b = true)
    (h2 : charListLe b c = true) : charListLe a c = true := by
  induction a generalizing b c with
  | nil => rfl
  | cons x xs ih =>
    rcases b with _ | ⟨y, ys⟩
    · exact absurd h1 (by simp [charListLe])
    rcases c with _ | ⟨z, zs⟩
    · exact absurd h2 (by simp [charListLe])
    by_cases hyx : y.toNat < x.toNat
    · rw [show charListLe (x :: xs) (y :: ys) =
          (if x.toNat < y.toNat then true
           else if y.toNat < x.toNat then false else charListLe xs ys) from rfl] at h1
      simp [Nat.lt_asymm hyx, hyx] at h1
    by_cases hzy : z.toNat < y.toNat
    · rw [show charListLe (y :: ys) (z :: zs) =
          (if y.toNat < z.toNat then true
           else if z.toNat < y.toNat then false else charListLe ys zs) from rfl] at h2
      simp [Nat.lt_asymm hzy, hzy] at h2
    by_cases hxy : x.toNat < y.toNat
    · have hxz : x.toNat < z.toNat := by omega
      simp [charListLe, hxz]
    by_cases hyz : y.toNat < z.toNat
    · have hxz : x.toNat < z.toNat := by omega
      simp [charListLe, hxz]
    have hxz1 : ¬ x.toNat < z.toNat := by omega
    have hxz2 : ¬ z.toNat < x.toNat := by omega
    simp only [charListLe, hxy, hyx, if_false, if_neg hxy, if_neg hyx] at h1
    simp only [charListLe, hyz, hzy, if_neg hyz, if_neg hzy] at h2
    simp only [charListLe, if_neg hxz1, if_neg hxz2]
    exact ih h1 h2

theorem charListLt_trans {a b c : List Char} (h1 : charListLt a b = true)
    (h2 : charListLt b c = true) : charListLt a c = true := by
  induction a generalizing b c with
  | nil =>
    rcases b with _ | ⟨y, ys⟩
    · exact absurd h1 (by simp [charListLt])
    rcases c with _ | ⟨z, zs⟩
    · exact absurd h2 (by simp [charListLt])
    · rfl
  | cons x xs ih =>
    rcases b with _ | ⟨y, ys⟩
    · exact absurd h1 (by simp [charListLt])
    rcases c with _ | ⟨z, zs⟩
    · exact absurd h2 (by simp [charListLt])
    by_cases hyx : y.toNat < x.toNat
    · rw [show charListLt (x :: xs) (y :: ys) =
          (if x.toNat < y.toNat then true
           else if y.toNat < x.toNat then false else charListLt xs ys) from rfl] at h1
      simp [Nat.lt_asymm hyx, hyx] at h1
    by_cases hzy : z.toNat < y.toNat
    · rw [show charListLt (y :: ys) (z :: zs) =
          (if y.toNat < z.toNat then true
           else if z.toNat < y.toNat then false else charListLt ys zs) from rfl] at h2
      simp [Nat.lt_asymm hzy, hzy] at h2
    by_cases hxy : x.toNat < y.toNat
    · have hxz : x.toNat < z.toNat := by omega
      simp [charListLt, hxz]
    by_cases hyz : y.toNat < z.toNat
    · have hxz : x.toNat < z.toNat := by omega
      simp [charListLt, hxz]
    have hxz1 : ¬ x.toNat < z.toNat := by omega
    have hxz2 : ¬ z.toNat < x.toNat := by omega
    simp only [charListLt, if_neg hxy, if_neg hyx] at h1
    simp only [charListLt, if_neg hyz, if_neg hzy] at h2
    simp only [charListLt, if_neg hxz1, if_neg hxz2]
    exact ih h1 h2

theorem charList_trichotomy (a b : List Char) :
    charListLt a b = true ∨ a = b ∨ charListLt b a = true := by
  induction a generalizing b with
  | nil =>
    rcases b with _ | ⟨d, ds⟩
    · exact Or.inr (Or.inl rfl)
    · exact Or.inl rfl
  | cons c cs ih =>
    rcases b with _ | ⟨d, ds⟩
    · exact Or.inr (Or.inr rfl)
    · rcases Nat.lt_trichotomy c.toNat d.toNat with h | h | h
      · exact Or.inl (by simp [charListLt, h])
      · have hcd : c = d := Char.eq_of_val_eq (UInt32.toNat.inj h)
        subst hcd
        rcases ih ds with h2 | h2 | h2
        · exact Or.inl (by simp [charListLt, h2])
        · exact Or.inr (Or.inl (by rw [h2]))
        · exact Or.inr (Or.inr (by simp [charListLt, h2]))
      · exact Or.inr (Or.inr (by simp [charListLt, h]))

instance keyLe.isTotal : IsTotal (String × String) keyLe := by
  constructor
  intro a b
  rcases charList_trichotomy a.1.data b.1.data with h | h | h
  · exact Or.inl (Or.inl h)
  · have hab : a.1 = b.1 := String.toList_inj.mp h
    rcases charListLe_total a.2.data b.2.data with h2 | h2
    · exact Or.inl (Or.inr ⟨hab, h2⟩)
    · exact Or.inr (Or.inr ⟨hab.symm, h2⟩)
  · exact Or.inr (Or.inl h)

instance keyLe.isTrans : IsTrans (String × String) keyLe := by
  constructor
  intro a b c hab hbc
  rcases hab with h1 | ⟨e1, l1⟩
  · rcases hbc with h2 | ⟨e2, l2⟩
    · exact Or.inl (charListLt_trans h1 h2)
    · refine Or.inl ?_
      rw [show strLtB a.1 c.1 = strLtB a.1 b.1 from by rw [e2]]
      exact h1
  · rcases hbc with h2 | ⟨e2, l2⟩
    · refine Or.inl ?_
      rw [show strLtB a.1 c.1 = strLtB b.1 c.1 from by rw [e1]]
      exact h2
    · exact Or.inr ⟨e1.trans e2, charListLe_trans l1 l2⟩

instance selLe.isTotal : IsTotal SelRow selLe := by
  constructor
  intro a b
  exact IsTotal.total (r := keyLe) (selKey a) (selKey b)

instance selLe.isTrans : IsTrans SelRow selLe := by
  constructor
  intro a b c hab hbc
  exact IsTrans.trans (r := keyLe) (selKey a) (selKey b) (selKey c) hab hbc

theorem sqlLeB_refl (a : SqlValue) : sqlLeB a a = true := by
  rcases a with _ | x | s <;> simp [sqlLeB, charListLe_refl]

theorem aggMax_eq_or (a b : SqlValue) : aggMax a b = a ∨ aggMax a b = b := by
  rcases a with _ | x | s
  · rcases b with _ | y | t <;> exact Or.inr (by simp [aggMax])
  · rcases b with _ | y | t
    · exact Or.inl (by simp [aggMax])
    · by_cases h : x ≤ y
      · exact Or.inr (by simp [aggMax, sqlLeB, h])
      · exact Or.inl (by simp [aggMax, sqlLeB, h])
    · exact Or.inr (by simp [aggMax, sqlLeB])
  · rcases b with _ | y | t
    · exact Or.inl (by simp [aggMax])
    · exact Or.inl (by simp [aggMax, sqlLeB])
    · by_cases h : charListLe s.data t.data = true
      · exact Or.inr (by simp [aggMax, sqlLeB, h])
      · exact Or.inl (by simp [aggMax, sqlLeB, h])

theorem le_aggMax_left (a b : SqlValue) : sqlLeB a (aggMax a b) = true := by
  rcases a with _ | x | s
  · rcases b with _ | y | t <;> simp [aggMax, sqlLeB]
  · rcases b with _ | y | t
    · simp [aggMax, sqlLeB]
    · by_cases h : x ≤ y <;> simp [aggMax, sqlLeB, h]
    · simp [aggMax, sqlLeB]
  · rcases b with _ | y | t
    · simp [aggMax, sqlLeB, charListLe_refl]
    · simp [aggMax, sqlLeB, charListLe_refl]
    · by_cases h : charListLe s.data t.data = true <;>
        simp [aggMax, sqlLeB, h, charListLe_refl]

theorem le_aggMax_right (a b : SqlValue) : sqlLeB b (aggMax a b) = true := by
  rcases a with _ | x | s
  · rcases b with _ | y | t <;> simp [aggMax, sqlLeB, charListLe_refl]
  · rcases b with _ | y | t
    · simp [aggMax, sqlLeB]
    · by_cases h : x ≤ y
      · simp [aggMax, sqlLeB, h]
      · simp [aggMax, sqlLeB, h]
        exact le_of_not_le h
    · simp [aggMax, sqlLeB, charListLe_refl]
  · rcases b with _ | y | t
    · simp [aggMax, sqlLeB, charListLe_refl]
    · simp [aggMax, sqlLeB]
    · by_cases h : charListLe s.data t.data = true
      · simp [aggMax, sqlLeB, h, charListLe_refl]
      · simp [aggMax, sqlLeB, h]
        rcases charListLe_total s.data t.data with h2 | h2
        · exact absurd h2 h
        · exact h2

theorem foldl_aggMax_mem (vs : List SqlValue) (init : SqlValue) :
    vs.foldl aggMax init = init ∨ vs.foldl aggMax init ∈ vs := by
  induction vs generalizing init with
  | nil => exact Or.inl rfl
  | cons v vs ih =>
    simp only [List.foldl_cons]
    rcases ih (aggMax init v) with h | h
    · rw [h]
      rcases aggMax_eq_or init v with h2 | h2
      · exact Or.inl h2
      · rw [h2]
        exact Or.inr (List.mem_cons_self v vs)
    · exact Or.inr (List.mem_cons_of_mem v h)

theorem sqlLeB_trans {a b c : SqlValue} (h1 : sqlLeB a b = true) (h2 : sqlLeB b c = true) :
    sqlLeB a c = true := by
  rcases a with _ | x | s <;> rcases b with _ | y | t <;> rcases c with _ | z | u <;>
    simp_all [sqlLeB]
  · exact le_trans h1 h2
  · exact charListLe_trans h1 h2

theorem le_foldl_aggMax (vs : List SqlValue) (init : SqlValue) :
    sqlLeB init (vs.foldl aggMax init) = true ∧
      ∀ v ∈ vs, sqlLeB v (vs.foldl aggMax init) = true := by
  induction vs generalizing init with
  | nil =>
    refine ⟨sqlLeB_refl init, ?_⟩
    intro v hv
    cases hv
  | cons v vs ih =>
    obtain ⟨h1, h2⟩ := ih (aggMax init v)
    refine ⟨sqlLeB_trans (le_aggMax_left init v) h1, ?_⟩
    intro w hw
    rcases List.mem_cons.mp hw with rfl | hw
    · exact sqlLeB_trans (le_aggMax_right init w) h1
    · exact h2 w hw

/-! ## General facts about the message handler -/

theorem applyCandidate_none (d : Store) : applyCandidate d none = d := by
  obtain ⟨tb, it, isn, rows, nid⟩ := d
  cases tb <;> simp [applyCandidate, insertedRows]

theorem store_map_none (db : Option Store) :
    db.map (fun d => applyCandidate d none) = db := by
  cases db <;> simp [applyCandidate_none]

/-- Master characterization of one `on_message` call: the callback always
returns, increments `messages_received` by one, and changes the database
exactly by inserting the message's decoded candidate (when there is one and
the table exists). -/
theorem on_message_run (st : MsgState) (topic : String) (payload : Option Json)
    (now : String) :
    on_message st topic payload now =
      { db := st.db.map fun d => applyCandidate d (msgCandidate topic payload now),
        messages_received := st.messages_received + 1 } := by
  obtain ⟨db, mr⟩ := st
  unfold on_message on_message_try msgCandidate
  rcases hsplit : splitSlash topic with _ | ⟨a, _ | ⟨b, _ | ⟨c, _ | ⟨e, l⟩⟩⟩⟩
  · simp [store_map_none]
  · simp [store_map_none]
  · simp [store_map_none]
  · rcases payload with _ | j
    · simp [store_map_none]
    rcases j with _ | jb | jq | js | jxs | fields
    · simp [decodeCandidate, store_map_none]
    · simp [decodeCandidate, store_map_none]
    · simp [decodeCandidate, store_map_none]
    · simp [decodeCandidate, store_map_none]
    · simp [decodeCandidate, store_map_none]
    · simp only [decodeCandidate]
      rcases hval : pyDictGet fields "value" with _ | v
      · simp [store_map_none]
      rcases v with _ | vb | vq | vs | vxs | vobj
      · simp [store_map_none]
      · -- value is a JSON boolean
        unfold store_reading
        rcases db with _ | s
        · simp
        obtain ⟨tb, it, isn, rows, nid⟩ := s
        rcases tb with _ | cols
        · simp [applyCandidate, insertedRows]
        rcases hbu : bindJson (decodedUnit fields) with _ | bu
        · simp [bindJson, applyCandidate, insertedRows]
        rcases hbt : bindJson (decodedTimestamp fields now) with _ | bt
        · simp [bindJson, applyCandidate, insertedRows]
        by_cases hn : bu = SqlValue.null ∨ bt = SqlValue.null
        · rcases hn with hn | hn <;> simp [hn, bindJson, applyCandidate, insertedRows]
        · obtain ⟨hbu0, hbt0⟩ := not_or.mp hn
          simp [hbu0, hbt0, bindJson, applyCandidate, insertedRows, mkRow]
      · -- value is a JSON number
        unfold store_reading
        rcases db with _ | s
        · simp
        obtain ⟨tb, it, isn, rows, nid⟩ := s
        rcases tb with _ | cols
        · simp [applyCandidate, insertedRows]
        rcases hbu : bindJson (decodedUnit fields) with _ | bu
        · simp [bindJson, applyCandidate, insertedRows]
        rcases hbt : bindJson (decodedTimestamp fields now) with _ | bt
        · simp [bindJson, applyCandidate, insertedRows]
        by_cases hn : bu = SqlValue.null ∨ bt = SqlValue.null
        · rcases hn with hn | hn <;> simp [hn, bindJson, applyCandidate, insertedRows]
        · obtain ⟨hbu0, hbt0⟩ := not_or.mp hn
          simp [hbu0, hbt0, bindJson, applyCandidate, insertedRows, mkRow]
      · -- value is a JSON string
        unfold store_reading
        rcases db with _ | s
        · simp
        obtain ⟨tb, it, isn, rows, nid⟩ := s
        rcases tb with _ | cols
        · simp [applyCandidate, insertedRows]
        rcases hbu : bindJson (decodedUnit fields) with _ | bu
        · simp [bindJson, applyCandidate, insertedRows]
        rcases hbt : bindJson (decodedTimestamp fields now) with _ | bt
        · simp [bindJson, applyCandidate, insertedRows]
        by_cases hn : bu = SqlValue.null ∨ bt = SqlValue.null
        · rcases hn with hn | hn <;> simp [hn, bindJson, applyCandidate, insertedRows]
        · obtain ⟨hbu0, hbt0⟩ := not_or.mp hn
          simp [hbu0, hbt0, bindJson, applyCandidate, insertedRows, mkRow]
      · -- value is a JSON array: unbindable parameter
        unfold store_reading
        rcases db with _ | s
        · simp
        obtain ⟨tb, it, isn, rows, nid⟩ := s
        rcases tb with _ | cols
        · simp [applyCandidate, insertedRows]
        simp [bindJson, applyCandidate, insertedRows]
      · -- value is a JSON object: unbindable parameter
        unfold store_reading
        rcases db with _ | s
        · simp
        obtain ⟨tb, it, isn, rows, nid⟩ := s
        rcases tb with _ | cols
        · simp [applyCandidate, insertedRows]
        simp [bindJson, applyCandidate, insertedRows]
  · simp [store_map_none]

/-- A topic that does not split into exactly three segments is rejected
before any decoding. -/
theorem msgCandidate_badTopic (topic : String) (payload : Option Json) (now : String)
    (h : (splitSlash topic).length ≠ 3) :
    msgCandidate topic payload now = none := by
  unfold msgCandidate
  rcases hs : splitSlash topic with _ | ⟨a, _ | ⟨b, _ | ⟨c, _ | ⟨e, l⟩⟩⟩⟩
  · rfl
  · rfl
  · rfl
  · rw [hs] at h; simp at h
  · rfl

/-- A payload whose `value` field is absent or JSON null produces no
candidate (the handler's `if value is None` check). -/
theorem msgCandidate_valueNone (topic : String) (fields : List (String × Json))
    (now : String)
    (h : pyDictGet fields "value" = none ∨ pyDictGet fields "value" = some Json.null) :
    msgCandidate topic (some (Json.obj fields)) now = none := by
  unfold msgCandidate
  rcases hs : splitSlash topic with _ | ⟨a, _ | ⟨b, _ | ⟨c, _ | ⟨e, l⟩⟩⟩⟩ <;> try rfl
  simp only [decodeCandidate]
  rcases h with h | h <;> rw [h]

/-! ## Claim C3 -/

/-- C3 (amended): for every delivered message whose topic does not split
into exactly three segments, no Reading is persisted — but the
`messages_received` counter IS incremented by one, because the handler
increments it before the topic check. -/
theorem claim_C3_bad_topic_no_insert_counter_increments
    (st : MsgState) (topic : String) (payload : Option Json) (now : String)
    (h : (splitSlash topic).length ≠ 3) :
    on_message st topic payload now =
      { db := st.db, messages_received := st.messages_received + 1 } := by
  rw [on_message_run, msgCandidate_badTopic _ _ _ h, store_map_none]

/-- Witness for C3's amended theorem at the concrete topic `bad/topic`. -/
theorem claim_C3_witness :
    on_message ⟨some initStore, 0⟩ "bad/topic"
        (some (Json.obj [("value", Json.num 1)])) "T" =
      ⟨some initStore, 1⟩ :=
  claim_C3_bad_topic_no_insert_counter_increments
    ⟨some initStore, 0⟩ "bad/topic" (some (Json.obj [("value", Json.num 1)])) "T"
    (by decide)

/-- Counterexample to C3 as stated: delivering a message on the two-segment
topic `bad/topic` changes `messages_received` (from 0 to 1), contradicting
"leaves the messages_received counter unchanged". -/
theorem claim_C3_counterexample :
    (on_message ⟨some initStore, 0⟩ "bad/topic"
        (some (Json.obj [("value", Json.num 1)])) "T").messages_received ≠
      (⟨some initStore, 0⟩ : MsgState).messages_received := by
  decide

/-! ## Claim C7 -/

/-- C7 (amended): a message whose topic does not split into exactly three
segments persists no Reading.  The rejection condition is only the segment
COUNT: segments may be empty (see the counterexample), so a persisted
Reading can have an empty `sensor_name`. -/
theorem claim_C7_bad_topic_message_discarded
    (st : MsgState) (topic : String) (payload : Option Json) (now : String)
    (h : (splitSlash topic).length ≠ 3) :
    (on_message st topic payload now).db = st.db := by
  rw [on_message_run, msgCandidate_badTopic _ _ _ h, store_map_none]

/-- Witness for C7's amended theorem at the concrete four-segment topic
`sensors/a/b/c`. -/
theorem claim_C7_witness :
    (on_message ⟨some initStore, 3⟩ "sensors/a/b/c"
        (some (Json.obj [("value", Json.num 1)])) "T").db = some initStore :=
  claim_C7_bad_topic_message_discarded
    ⟨some initStore, 3⟩ "sensors/a/b/c" (some (Json.obj [("value", Json.num 1)])) "T"
    (by decide)

/-- Counterexample to C7 as stated: the topic `sensors//temperature` has an
EMPTY middle segment, yet the message is accepted and a Reading with empty
`sensor_name` is persisted. -/
theorem claim_C7_counterexample :
    (on_message ⟨some initStore, 0⟩ "sensors//temperature"
        (some (Json.obj [("value", Json.num 1)])) "T").db =
      some { initStore with
               rows := [⟨1, "", "temperature", SqlValue.num 1,
                          SqlValue.text "", SqlValue.text "T"⟩],
               nextId := 2 } := by
  decide

/-! ## Claim C4 -/

/-- C4 (amended): no Reading is persisted when the payload's `value` field
is absent or JSON null (Python `None`).  A PRESENT non-null, non-numeric
`value` (e.g. a boolean or a string) is NOT rejected: it is persisted — see
the counterexample. -/
theorem claim_C4_absent_value_no_insert
    (st : MsgState) (topic : String) (fields : List (String × Json)) (now : String)
    (h : pyDictGet fields "value" = none ∨ pyDictGet fields "value" = some Json.null) :
    on_message st topic (some (Json.obj fields)) now =
      { db := st.db, messages_received := st.messages_received + 1 } := by
  rw [on_message_run, msgCandidate_valueNone _ _ _ h, store_map_none]

/-- Witness for C4's amended theorem: the spec's own scenario — topic
`sensors/deskB/humidity`, payload `{"unit":"%"}` (no `value`) — inserts
nothing. -/
theorem claim_C4_witness :
    on_message ⟨some initStore, 0⟩ "sensors/deskB/humidity"
        (some (Json.obj [("unit", Json.str "%")])) "T" =
      ⟨some initStore, 1⟩ :=
  claim_C4_absent_value_no_insert
    ⟨some initStore, 0⟩ "sensors/deskB/humidity" [("unit", Json.str "%")] "T"
    (Or.inl rfl)

/-- Counterexample to C4 as stated: the payload `{"value": true}` has a
present but non-numeric `value`, yet a Reading IS persisted (the boolean is
bound as the number 1). -/
theorem claim_C4_counterexample :
    (on_message ⟨some initStore, 0⟩ "sensors/deskA/temperature"
        (some (Json.obj [("value", Json.bool true)])) "T").db =
      some { initStore with
               rows := [⟨1, "deskA", "temperature", SqlValue.num 1,
                          SqlValue.text "", SqlValue.text "T"⟩],
               nextId := 2 } := by
  decide

/-! ## Claim C10 -/

/-- C10: a payload that is valid JSON but not a map (bare number, string,
array, boolean or null) persists nothing and leaves only the counter
increment: the `.get` attribute error is caught by the handler's catch-all
`except Exception` branch, so the callback still returns a state.  On a
well-formed three-segment topic the raised-and-caught exception is exactly
the attribute error. -/
theorem claim_C10_nonmap_payload_no_insert
    (st : MsgState) (topic : String) (j : Json) (now : String)
    (h : ∀ fields, j ≠ Json.obj fields) :
    on_message st topic (some j) now =
        { db := st.db, messages_received := st.messages_received + 1 } ∧
      ∀ a b c, splitSlash topic = [a, b, c] →
        on_message_try st topic (some j) now =
          Except.error (PyExn.attributeError,
            { st with messages_received := st.messages_received + 1 }) := by
  constructor
  · rw [on_message_run]
    have hc : msgCandidate topic (some j) now = none := by
      unfold msgCandidate
      rcases hs : splitSlash topic with _ | ⟨a, _ | ⟨b, _ | ⟨c, _ | ⟨e, l⟩⟩⟩⟩ <;> try rfl
      rcases j with _ | jb | jq | js | jxs | fields
      · rfl
      · rfl
      · rfl
      · rfl
      · rfl
      · exact absurd rfl (h fields)
    rw [hc, store_map_none]
  · intro a b c hs
    unfold on_message_try
    rw [hs]
    rcases j with _ | jb | jq | js | jxs | fields
    · rfl
    · rfl
    · rfl
    · rfl
    · rfl
    · exact absurd rfl (h fields)

/-- Witness for C10 at the concrete payload `5` (a bare JSON number) on a
well-formed topic. -/
theorem claim_C10_witness :
    on_message ⟨some initStore, 0⟩ "sensors/deskA/temperature"
          (some (Json.num 5)) "T" =
        ⟨some initStore, 1⟩ ∧
      ∀ a b c, splitSlash "sensors/deskA/temperature" = [a, b, c] →
        on_message_try ⟨some initStore, 0⟩ "sensors/deskA/temperature"
            (some (Json.num 5)) "T" =
          Except.error (PyExn.attributeError, ⟨some initStore, 1⟩) :=
  claim_C10_nonmap_payload_no_insert
    ⟨some initStore, 0⟩ "sensors/deskA/temperature" (Json.num 5) "T"
    (fun fields hf => Json.noConfusion hf)

/-! ## Claim C5 -/

/-- C5: per-message fault isolation.  For EVERY topic and every payload
outcome (including unparseable or hostile input), the callback `on_message`
— a total function whose `except` branches are modelled explicitly via
`on_message_try` — returns a definite successor state: the counter always
advances by exactly one, the database is changed only by appending at most
one row (never touching existing rows), and the appended content is
`msgCandidate topic payload now`, a pure function of the delivered message
alone — no decode state from any previous message is read. -/
theorem claim_C5_handler_total_and_isolated
    (st : MsgState) (topic : String) (payload : Option Json) (now : String) :
    (on_message st topic payload now).messages_received = st.messages_received + 1 ∧
    (on_message st topic payload now).db =
      st.db.map (fun d => applyCandidate d (msgCandidate topic payload now)) ∧
    ∀ d : Store,
      (applyCandidate d (msgCandidate topic payload now)).rows =
          d.rows ++ insertedRows d (msgCandidate topic payload now) ∧
        (insertedRows d (msgCandidate topic payload now)).length ≤ 1 := by
  refine ⟨?_, ?_, ?_⟩
  · rw [on_message_run]
  · rw [on_message_run]
  · intro d
    refine ⟨rfl, ?_⟩
    unfold insertedRows
    rcases d.table with _ | cols
    · simp
    · rcases msgCandidate topic payload now with _ | c <;> simp

/-! ## Claim C9 -/

/-- C9: the decoded Reading candidate (the three `payload.get` results)
takes `unit` verbatim when the field is present and the empty string when
absent, and takes `timestamp` verbatim when present and the decoder's
current wall-clock string when absent; `value` is the raw field lookup. -/
theorem claim_C9_decoder_defaults
    (fields : List (String × Json)) (now : String) :
    ∃ valueOpt unitJ tsJ,
      decodeCandidate (Json.obj fields) now = some (valueOpt, unitJ, tsJ) ∧
      valueOpt = pyDictGet fields "value" ∧
      (pyDictGet fields "unit" = none → unitJ = Json.str "") ∧
      (∀ j, pyDictGet fields "unit" = some j → unitJ = j) ∧
      (pyDictGet fields "timestamp" = none → tsJ = Json.str now) ∧
      (∀ j, pyDictGet fields "timestamp" = some j → tsJ = j) := by
  refine ⟨_, _, _, rfl, rfl, ?_, ?_, ?_, ?_⟩
  · intro h; unfold decodedUnit; rw [h]; rfl
  · intro j h; unfold decodedUnit; rw [h]; rfl
  · intro h; unfold decodedTimestamp; rw [h]; rfl
  · intro j h; unfold decodedTimestamp; rw [h]; rfl

/-- Witness for C9 at a concrete payload with `unit` present and
`timestamp` absent. -/
theorem claim_C9_witness :
    ∃ valueOpt unitJ tsJ,
      decodeCandidate (Json.obj [("value", Json.num 1), ("unit", Json.str "C")]) "T" =
        some (valueOpt, unitJ, tsJ) ∧
      valueOpt = pyDictGet [("value", Json.num 1), ("unit", Json.str "C")] "value" ∧
      (pyDictGet [("value", Json.num 1), ("unit", Json.str "C")] "unit" = none →
        unitJ = Json.str "") ∧
      (∀ j, pyDictGet [("value", Json.num 1), ("unit", Json.str "C")] "unit" = some j →
        unitJ = j) ∧
      (pyDictGet [("value", Json.num 1), ("unit", Json.str "C")] "timestamp" = none →
        tsJ = Json.str "T") ∧
      (∀ j, pyDictGet [("value", Json.num 1), ("unit", Json.str "C")] "timestamp" = some j →
        tsJ = j) :=
  claim_C9_decoder_defaults [("value", Json.num 1), ("unit", Json.str "C")] "T"

/-! ## Claim C1 -/

/-- Computation of the candidate for a well-formed message: three-segment
topic, dict payload with numeric `value`, and `unit`/`timestamp` absent or
strings. -/
theorem msgCandidate_wellformed (topic S K : String) (fields : List (String × Json))
    (now : String) (q : ℚ)
    (hsplit : splitSlash topic = ["sensors", S, K])
    (hval : pyDictGet fields "value" = some (Json.num q))
    (hunit : pyDictGet fields "unit" = none ∨
      ∃ u, pyDictGet fields "unit" = some (Json.str u))
    (hts : pyDictGet fields "timestamp" = none ∨
      ∃ t, pyDictGet fields "timestamp" = some (Json.str t)) :
    ∃ u t : String,
      msgCandidate topic (some (Json.obj fields)) now =
        some (S, K, SqlValue.num q, SqlValue.text u, SqlValue.text t) ∧
      (pyDictGet fields "unit" = none → u = "") ∧
      (∀ u', pyDictGet fields "unit" = some (Json.str u') → u = u') ∧
      (pyDictGet fields "timestamp" = none → t = now) ∧
      (∀ t', pyDictGet fields "timestamp" = some (Json.str t') → t = t') := by
  have hu : ∃ u : String, decodedUnit fields = Json.str u ∧
      (pyDictGet fields "unit" = none → u = "") ∧
      (∀ u', pyDictGet fields "unit" = some (Json.str u') → u = u') := by
    rcases hunit with h | ⟨u, h⟩
    · refine ⟨"", ?_, ?_, ?_⟩
      · unfold decodedUnit; rw [h]; rfl
      · intro _; rfl
      · intro u' h'; rw [h] at h'; cases h'
    · refine ⟨u, ?_, ?_, ?_⟩
      · unfold decodedUnit; rw [h]; rfl
      · intro h0; rw [h0] at h; cases h
      · intro u' h'; rw [h] at h'; cases h'; rfl
  have ht : ∃ t : String, decodedTimestamp fields now = Json.str t ∧
      (pyDictGet fields "timestamp" = none → t = now) ∧
      (∀ t', pyDictGet fields "timestamp" = some (Json.str t') → t = t') := by
    rcases hts with h | ⟨t, h⟩
    · refine ⟨now, ?_, ?_, ?_⟩
      · unfold decodedTimestamp; rw [h]; rfl
      · intro _; rfl
      · intro t' h'; rw [h] at h'; cases h'
    · refine ⟨t, ?_, ?_, ?_⟩
      · unfold decodedTimestamp; rw [h]; rfl
      · intro h0; rw [h0] at h; cases h
      · intro t' h'; rw [h] at h'; cases h'; rfl
  obtain ⟨u, hu1, hu2, hu3⟩ := hu
  obtain ⟨t, ht1, ht2, ht3⟩ := ht
  refine ⟨u, t, ?_, hu2, hu3, ht2, ht3⟩
  unfold msgCandidate
  rw [hsplit]
  simp only [decodeCandidate]
  rw [hval, hu1, ht1]
  simp [bindJson]

/-- C1 (amended): a message on an exactly-three-segment topic
`sensors/{S}/{K}` whose payload is a JSON map with a numeric `value`, and
whose optional `unit`/`timestamp` fields, when present, are strings,
persists exactly one new Reading — appended after the existing rows, which
are untouched — with `sensor_name = S`, `measurement_kind = K`, the given
numeric value, the payload's `unit` (empty string when absent) and the
payload's `timestamp` (decode-time clock when absent).  (The string-type
proviso on `unit`/`timestamp` is forced: a JSON-null `unit` or `timestamp`
violates the table's NOT NULL constraint and no row is stored — see the
counterexample.) -/
theorem claim_C1_wellformed_message_stores_one_reading
    (st : MsgState) (d : Store) (cols : List String) (topic S K now : String)
    (fields : List (String × Json)) (q : ℚ)
    (hdb : st.db = some d) (htab : d.table = some cols)
    (hsplit : splitSlash topic = ["sensors", S, K]) (hS : S ≠ "") (hK : K ≠ "")
    (hval : pyDictGet fields "value" = some (Json.num q))
    (hunit : pyDictGet fields "unit" = none ∨
      ∃ u, pyDictGet fields "unit" = some (Json.str u))
    (hts : pyDictGet fields "timestamp" = none ∨
      ∃ t, pyDictGet fields "timestamp" = some (Json.str t)) :
    ∃ u t : String,
      on_message st topic (some (Json.obj fields)) now =
        { db := some { d with
                         rows := d.rows ++ [⟨d.nextId, S, K, SqlValue.num q,
                                             SqlValue.text u, SqlValue.text t⟩],
                         nextId := d.nextId + 1 },
          messages_received := st.messages_received + 1 } ∧
      (pyDictGet fields "unit" = none → u = "") ∧
      (∀ u', pyDictGet fields "unit" = some (Json.str u') → u = u') ∧
      (pyDictGet fields "timestamp" = none → t = now) ∧
      (∀ t', pyDictGet fields "timestamp" = some (Json.str t') → t = t') := by
  obtain ⟨u, t, hc, h1, h2, h3, h4⟩ :=
    msgCandidate_wellformed topic S K fields now q hsplit hval hunit hts
  refine ⟨u, t, ?_, h1, h2, h3, h4⟩
  rw [on_message_run, hc, hdb]
  simp [applyCandidate, insertedRows, htab, mkRow]

/-- Witness for C1's amended theorem at the concrete message
`sensors/deskA/temperature`, `{"value": 1, "unit": "C"}`. -/
theorem claim_C1_witness :
    ∃ u t : String,
      on_message ⟨some initStore, 0⟩ "sensors/deskA/temperature"
          (some (Json.obj [("value", Json.num 1), ("unit", Json.str "C")])) "T" =
        { db := some { initStore with
                         rows := initStore.rows ++
                           [⟨initStore.nextId, "deskA", "temperature", SqlValue.num 1,
                              SqlValue.text u, SqlValue.text t⟩],
                         nextId := initStore.nextId + 1 },
          messages_received := 0 + 1 } ∧
      (pyDictGet [("value", Json.num 1), ("unit", Json.str "C")] "unit" = none →
        u = "") ∧
      (∀ u', pyDictGet [("value", Json.num 1), ("unit", Json.str "C")] "unit" =
        some (Json.str u') → u = u') ∧
      (pyDictGet [("value", Json.num 1), ("unit", Json.str "C")] "timestamp" = none →
        t = "T") ∧
      (∀ t', pyDictGet [("value", Json.num 1), ("unit", Json.str "C")] "timestamp" =
        some (Json.str t') → t = t') :=
  claim_C1_wellformed_message_stores_one_reading
    ⟨some initStore, 0⟩ initStore sensorReadingsColumns
    "sensors/deskA/temperature" "deskA" "temperature" "T"
    [("value", Json.num 1), ("unit", Json.str "C")] 1
    rfl rfl (by decide) (by decide) (by decide) rfl (Or.inr ⟨"C", rfl⟩) (Or.inl rfl)

/-- Counterexample to C1 as stated: the payload
`{"value": 1, "unit": null}` parses as a JSON map with a numeric `value`,
yet NO Reading is persisted — the bound NULL violates the `unit` column's
NOT NULL constraint, `store_reading` catches the error and returns
`False`. -/
theorem claim_C1_counterexample :
    (on_message ⟨some initStore, 0⟩ "sensors/deskA/temperature"
        (some (Json.obj [("value", Json.num 1), ("unit", Json.null)])) "T").db =
      some initStore := by
  decide

/-! ## Claim C8 -/

/-- C8: `init_database` is idempotent — a second call against the same
store yields exactly the state of the first call — and it never deletes or
alters the rows (or the id counter) of a pre-populated store, while
guaranteeing the table and both indexes exist afterwards. -/
theorem claim_C8_init_database_idempotent (s : Store) :
    (init_database (init_database s).1).1 = (init_database s).1 ∧
    (init_database s).1.rows = s.rows ∧
    (init_database s).1.nextId = s.nextId ∧
    (init_database s).1.table.isSome = true ∧
    (init_database s).1.idx_timestamp.isSome = true ∧
    (init_database s).1.idx_sensor_name.isSome = true ∧
    (init_database s).2 = true := by
  obtain ⟨tb, it, isn, rows, nid⟩ := s
  rcases tb with _ | t <;> rcases it with _ | i <;> rcases isn with _ | n <;>
    simp [init_database, createTableIfNotExists, createIdxTimestampIfNotExists,
      createIdxSensorNameIfNotExists]

/-! ## Claim C2 -/

/-- The per-sensor `MAX(timestamp)` subquery value is attained by some row
of the sensor and bounds every row of the sensor (in SQLite value order). -/
theorem maxTsFor_spec (rows : List StoredRow) (name : String)
    (hts : ∀ r ∈ rows, r.timestamp ≠ SqlValue.null)
    (hex : ∃ r ∈ rows, r.sensor_name = name) :
    (∃ r ∈ rows, r.sensor_name = name ∧ r.timestamp = maxTsFor rows name) ∧
      ∀ r ∈ rows, r.sensor_name = name →
        sqlLeB r.timestamp (maxTsFor rows name) = true := by
  have hconv : maxTsFor rows name =
      ((rows.filter fun r => decide (r.sensor_name = name)).map
        (fun r => r.timestamp)).foldl aggMax SqlValue.null := by
    rw [maxTsFor, List.foldl_map]
  have hub : ∀ r ∈ rows, r.sensor_name = name →
      sqlLeB r.timestamp (maxTsFor rows name) = true := by
    intro r hr hrname
    rw [hconv]
    exact (le_foldl_aggMax _ _).2 _
      (List.mem_map_of_mem _ (List.mem_filter.mpr ⟨hr, by simp [hrname]⟩))
  refine ⟨?_, hub⟩
  obtain ⟨r0, hr0, hname0⟩ := hex
  rcases foldl_aggMax_mem
      ((rows.filter fun r => decide (r.sensor_name = name)).map
        (fun r => r.timestamp)) SqlValue.null with hnull | hmem
  · exfalso
    have h1 := hub r0 hr0 hname0
    rw [hconv, hnull] at h1
    rcases hr : r0.timestamp with _ | q | s2
    · exact hts r0 hr0 hr
    · rw [hr] at h1; exact Bool.noConfusion h1
    · rw [hr] at h1; exact Bool.noConfusion h1
  · rw [← hconv] at hmem
    obtain ⟨r1, hr1f, hr1t⟩ := List.mem_map.mp hmem
    obtain ⟨hr1rows, hr1p⟩ := List.mem_filter.mp hr1f
    exact ⟨r1, hr1rows, by simpa using hr1p, hr1t⟩

/-- C2 (amended): `get_latest_readings` groups by `sensor_name` ONLY, not
by (sensor_name, measurement_kind), and applies no id tie-break.  It
returns, ordered by (sensor_name, sensor_type) and without duplicate
tuples, exactly the distinct projected tuples of stored rows whose
timestamp equals the maximum timestamp among ALL rows of the same sensor
(any kind); on timestamp ties several rows can be returned for one
(sensor_name, kind) pair, and a kind whose rows are all older than the
sensor's overall maximum is absent. -/
theorem claim_C2_latest_grouped_by_sensor_only (s : Store)
    (htab : s.table.isSome = true)
    (hts : ∀ r ∈ s.rows, r.timestamp ≠ SqlValue.null) :
    ∃ out, get_latest_readings (some s) = some out ∧
      out.Nodup ∧
      List.Sorted selLe out ∧
      (∀ t, t ∈ out ↔ ∃ r ∈ s.rows,
        selOf r = t ∧ r.timestamp = maxTsFor s.rows r.sensor_name) ∧
      ∀ name : String, (∃ r ∈ s.rows, r.sensor_name = name) →
        (∃ r ∈ s.rows, r.sensor_name = name ∧ r.timestamp = maxTsFor s.rows name) ∧
          ∀ r ∈ s.rows, r.sensor_name = name →
            sqlLeB r.timestamp (maxTsFor s.rows name) = true := by
  obtain ⟨cols, hcols⟩ := Option.isSome_iff_exists.mp htab
  refine ⟨List.insertionSort selLe
      (((s.rows.filter fun r =>
        decide (r.timestamp = maxTsFor s.rows r.sensor_name)).map selOf).dedup),
    ?_, ?_, ?_, ?_, ?_⟩
  · simp [get_latest_readings, hcols]
  · exact (List.perm_insertionSort _ _).nodup_iff.mpr (List.nodup_dedup _)
  · exact List.sorted_insertionSort _ _
  · intro t
    rw [(List.perm_insertionSort selLe _).mem_iff, List.mem_dedup, List.mem_map]
    constructor
    · rintro ⟨r, hrf, rfl⟩
      obtain ⟨hr, hp⟩ := List.mem_filter.mp hrf
      exact ⟨r, hr, rfl, by simpa using hp⟩
    · rintro ⟨r, hr, rfl, hmax⟩
      exact ⟨r, List.mem_filter.mpr ⟨hr, by simp [hmax]⟩, rfl⟩
  · intro name hex
    exact maxTsFor_spec s.rows name hts hex

/-- Witness for C2's amended theorem at a concrete three-row store. -/
theorem claim_C2_witness :
    ∃ out, get_latest_readings (some exC2HStore) = some out ∧
      out.Nodup ∧
      List.Sorted selLe out ∧
      (∀ t, t ∈ out ↔ ∃ r ∈ exC2HStore.rows,
        selOf r = t ∧ r.timestamp = maxTsFor exC2HStore.rows r.sensor_name) ∧
      ∀ name : String, (∃ r ∈ exC2HStore.rows, r.sensor_name = name) →
        (∃ r ∈ exC2HStore.rows, r.sensor_name = name ∧
            r.timestamp = maxTsFor exC2HStore.rows name) ∧
          ∀ r ∈ exC2HStore.rows, r.sensor_name = name →
            sqlLeB r.timestamp (maxTsFor exC2HStore.rows name) = true :=
  claim_C2_latest_grouped_by_sensor_only exC2HStore rfl (by decide)

/-- Counterexample to C2 as stated: on a store holding two readings for the
pair (deskA, temperature) with the same timestamp and different values,
`get_latest_readings` returns BOTH rows — more than one row for a single
(sensor_name, measurement_kind) pair, with no id tie-break. -/
theorem claim_C2_counterexample :
    get_latest_readings (some exC2CtrStore) =
      some [("deskA", "temperature", SqlValue.num 1, SqlValue.text "C", SqlValue.text "T1"),
            ("deskA", "temperature", SqlValue.num 2, SqlValue.text "C", SqlValue.text "T1")] ∧
    ((get_latest_readings (some exC2CtrStore)).getD []).countP
        (fun t => decide (selKey t = ("deskA", "temperature"))) = 2 := by
  decide

/-! ## Claim C6 -/

theorem exists_ratList (g : List StoredRow)
    (h : ∀ r ∈ g, ∃ q : ℚ, r.value = SqlValue.num q) :
    ∃ qs : List ℚ, g.map (fun r => r.value) = qs.map SqlValue.num := by
  induction g with
  | nil => exact ⟨[], rfl⟩
  | cons r g ih =>
    obtain ⟨qs, hqs⟩ := ih (fun x hx => h x (List.mem_cons_of_mem r hx))
    obtain ⟨q, hq⟩ := h r (List.mem_cons_self r g)
    exact ⟨q :: qs, by simp [hq, hqs]⟩

theorem foldl_aggMin_num (qs : List ℚ) (a : ℚ) :
    ∃ m, List.foldl aggMin (SqlValue.num a) (qs.map SqlValue.num) = SqlValue.num m ∧
      (m = a ∨ m ∈ qs) ∧ m ≤ a ∧ ∀ x ∈ qs, m ≤ x := by
  induction qs generalizing a with
  | nil =>
    refine ⟨a, rfl, Or.inl rfl, le_refl a, ?_⟩
    intro x hx
    cases hx
  | cons q qs ih =>
    have hstep : aggMin (SqlValue.num a) (SqlValue.num q) = SqlValue.num (min a q) := by
      by_cases h : a ≤ q <;> simp [aggMin, sqlLeB, h, min_def]
    obtain ⟨m, h1, h2, h3, h4⟩ := ih (min a q)
    refine ⟨m, ?_, ?_, ?_, ?_⟩
    · simpa [hstep] using h1
    · rcases h2 with rfl | hm
      · rcases min_choice a q with h5 | h5
        · exact Or.inl h5
        · refine Or.inr ?_
          rw [h5]
          exact List.mem_cons_self q qs
      · exact Or.inr (List.mem_cons_of_mem q hm)
    · exact le_trans h3 (min_le_left a q)
    · intro x hx
      rcases List.mem_cons.mp hx with rfl | hx
      · exact le_trans h3 (min_le_right a x)
      · exact h4 x hx

theorem foldl_aggMax_num (qs : List ℚ) (a : ℚ) :
    ∃ m, List.foldl aggMax (SqlValue.num a) (qs.map SqlValue.num) = SqlValue.num m ∧
      (m = a ∨ m ∈ qs) ∧ a ≤ m ∧ ∀ x ∈ qs, x ≤ m := by
  induction qs generalizing a with
  | nil =>
    refine ⟨a, rfl, Or.inl rfl, le_refl a, ?_⟩
    intro x hx
    cases hx
  | cons q qs ih =>
    have hstep : aggMax (SqlValue.num a) (SqlValue.num q) = SqlValue.num (max a q) := by
      by_cases h : a ≤ q <;> simp [aggMax, sqlLeB, h, max_def]
    obtain ⟨m, h1, h2, h3, h4⟩ := ih (max a q)
    refine ⟨m, ?_, ?_, ?_, ?_⟩
    · simpa [hstep] using h1
    · rcases h2 with rfl | hm
      · rcases max_choice a q with h5 | h5
        · exact Or.inl h5
        · refine Or.inr ?_
          rw [h5]
          exact List.mem_cons_self q qs
      · exact Or.inr (List.mem_cons_of_mem q hm)
    · exact le_trans (le_max_left a q) h3
    · intro x hx
      rcases List.mem_cons.mp hx with rfl | hx
      · exact le_trans (le_max_right a x) h3
      · exact h4 x hx

/-- C6: `get_readings_summary` returns exactly one group per distinct
(sensor_name, sensor_type) pair present in the store, ordered by
sensor_name then sensor_type, and for each group reports the row count,
the minimum, maximum and arithmetic mean of the stored numeric `value`s.
(The hypothesis that every stored value is numeric is the spec's data
model for Readings.) -/
theorem claim_C6_summary_per_pair (s : Store) (htab : s.table.isSome = true)
    (hnum : ∀ r ∈ s.rows, ∃ q : ℚ, r.value = SqlValue.num q) :
    ∃ out, get_readings_summary (some s) = some out ∧
      (out.map fun sr => (sr.sensor_name, sr.sensor_type)).Nodup ∧
      List.Sorted keyLe (out.map fun sr => (sr.sensor_name, sr.sensor_type)) ∧
      (∀ k : String × String,
        (k ∈ out.map fun sr => (sr.sensor_name, sr.sensor_type)) ↔
          ∃ r ∈ s.rows, keyOf r = k) ∧
      ∀ sr ∈ out, ∃ qs : List ℚ, qs ≠ [] ∧
        (groupRows s.rows (sr.sensor_name, sr.sensor_type)).map (fun r => r.value) =
          qs.map SqlValue.num ∧
        sr.count = qs.length ∧
        (∃ m ∈ qs, sr.min_val = SqlValue.num m ∧ ∀ x ∈ qs, m ≤ x) ∧
        (∃ m ∈ qs, sr.max_val = SqlValue.num m ∧ ∀ x ∈ qs, x ≤ m) ∧
        sr.avg_val = qs.sum / (qs.length : ℚ) := by
  obtain ⟨cols, hcols⟩ := Option.isSome_iff_exists.mp htab
  have hkeys : (((List.insertionSort keyLe (summaryKeys s.rows)).map
        (summaryFor s.rows)).map (fun sr => (sr.sensor_name, sr.sensor_type))) =
      List.insertionSort keyLe (summaryKeys s.rows) := by
    rw [List.map_map]
    have hcomp : ((fun sr : SummaryRow => (sr.sensor_name, sr.sensor_type)) ∘
        summaryFor s.rows) = id := by
      funext k
      rfl
    rw [hcomp, List.map_id]
  refine ⟨(List.insertionSort keyLe (summaryKeys s.rows)).map (summaryFor s.rows),
    ?_, ?_, ?_, ?_, ?_⟩
  · simp [get_readings_summary, hcols]
  · rw [hkeys]
    exact (List.perm_insertionSort _ _).nodup_iff.mpr (List.nodup_dedup _)
  · rw [hkeys]
    exact List.sorted_insertionSort _ _
  · intro k
    rw [hkeys, (List.perm_insertionSort keyLe _).mem_iff, summaryKeys, List.mem_dedup,
      List.mem_map]
  · intro sr hsr
    obtain ⟨k, hk, rfl⟩ := List.mem_map.mp hsr
    have hk2 : k ∈ summaryKeys s.rows := (List.perm_insertionSort keyLe _).mem_iff.mp hk
    rw [summaryKeys, List.mem_dedup] at hk2
    obtain ⟨r0, hr0, hkey0⟩ := List.mem_map.mp hk2
    have hr0g : r0 ∈ groupRows s.rows k := by
      rw [groupRows]
      exact List.mem_filter.mpr ⟨hr0, by simp [hkey0]⟩
    have hgnum : ∀ r ∈ groupRows s.rows k, ∃ q : ℚ, r.value = SqlValue.num q := by
      intro r hr
      exact hnum r (List.mem_filter.mp hr).1
    obtain ⟨qs, hqs⟩ := exists_ratList (groupRows s.rows k) hgnum
    have hglen : (groupRows s.rows k).length = qs.length := by
      have h0 := congrArg List.length hqs
      simpa using h0
    have hgne : groupRows s.rows k ≠ [] := by
      intro h0
      rw [h0] at hr0g
      cases hr0g
    have hkeq : ((summaryFor s.rows k).sensor_name, (summaryFor s.rows k).sensor_type) = k :=
      rfl
    rw [hkeq]
    rcases qs with _ | ⟨q0, qs'⟩
    · exfalso
      apply hgne
      have h0 : (groupRows s.rows k).map (fun r => r.value) = [] := by simpa using hqs
      exact List.map_eq_nil_iff.mp h0
    obtain ⟨m, h1, h2, h3, h4⟩ := foldl_aggMin_num qs' q0
    obtain ⟨M, H1, H2, H3, H4⟩ := foldl_aggMax_num qs' q0
    refine ⟨q0 :: qs', List.cons_ne_nil q0 qs', hqs, hglen, ?_, ?_, ?_⟩
    · refine ⟨m, ?_, ?_, ?_⟩
      · rcases h2 with rfl | hm
        · exact List.mem_cons_self _ _
        · exact List.mem_cons_of_mem q0 hm
      · show minValue (groupRows s.rows k) = SqlValue.num m
        have e : minValue (groupRows s.rows k) =
            ((groupRows s.rows k).map (fun r => r.value)).foldl aggMin SqlValue.null := by
          rw [minValue, List.foldl_map]
        rw [e, hqs]
        simpa [aggMin] using h1
      · intro x hx
        rcases List.mem_cons.mp hx with rfl | hx'
        · exact h3
        · exact h4 x hx'
    · refine ⟨M, ?_, ?_, ?_⟩
      · rcases H2 with rfl | hM
        · exact List.mem_cons_self _ _
        · exact List.mem_cons_of_mem q0 hM
      · show maxValue (groupRows s.rows k) = SqlValue.num M
        have e : maxValue (groupRows s.rows k) =
            ((groupRows s.rows k).map (fun r => r.value)).foldl aggMax SqlValue.null := by
          rw [maxValue, List.foldl_map]
        rw [e, hqs]
        simpa [aggMax] using H1
      · intro x hx
        rcases List.mem_cons.mp hx with rfl | hx'
        · exact H3
        · exact H4 x hx'
    · have hmap : (groupRows s.rows k).map (fun r => r.value.toRat) = q0 :: qs' := by
        have e : (groupRows s.rows k).map (fun r => r.value.toRat) =
            ((groupRows s.rows k).map (fun r => r.value)).map SqlValue.toRat := by
          rw [List.map_map]
          rfl
        rw [e, hqs, List.map_map]
        have hcomp2 : (SqlValue.toRat ∘ SqlValue.num) = id := by
          funext x
          rfl
        rw [hcomp2, List.map_id]
      show ((groupRows s.rows k).map (fun r => r.value.toRat)).sum /
          (((groupRows s.rows k).length : ℚ)) = (q0 :: qs').sum / (((q0 :: qs').length : ℚ))
      rw [hmap, hglen]

/-- Witness for C6 at a concrete two-row store (values 1 and 2 for the pair
(deskA, temperature)). -/
theorem claim_C6_witness :
    ∃ out, get_readings_summary (some exC6Store) = some out ∧
      (out.map fun sr => (sr.sensor_name, sr.sensor_type)).Nodup ∧
      List.Sorted keyLe (out.map fun sr => (sr.sensor_name, sr.sensor_type)) ∧
      (∀ k : String × String,
        (k ∈ out.map fun sr => (sr.sensor_name, sr.sensor_type)) ↔
          ∃ r ∈ exC6Store.rows, keyOf r = k) ∧
      ∀ sr ∈ out, ∃ qs : List ℚ, qs ≠ [] ∧
        (groupRows exC6Store.rows (sr.sensor_name, sr.sensor_type)).map (fun r => r.value) =
          qs.map SqlValue.num ∧
        sr.count = qs.length ∧
        (∃ m ∈ qs, sr.min_val = SqlValue.num m ∧ ∀ x ∈ qs, m ≤ x) ∧
        (∃ m ∈ qs, sr.max_val = SqlValue.num m ∧ ∀ x ∈ qs, x ≤ m) ∧
        sr.avg_val = qs.sum / (qs.length : ℚ) := by
  apply claim_C6_summary_per_pair
  · rfl
  · intro r hr
    rcases List.mem_cons.mp hr with h | hr2
    · exact ⟨1, by rw [h]⟩
    rcases List.mem_cons.mp hr2 with h | hr3
    · exact ⟨2, by rw [h]⟩
    · cases hr3
